import Mathlib

/-!
Verification of the `pl` Prolog engine (packages `syntax`, `builtin`).

The Go source mutates `Variable` cells in place and links `Goal` nodes by
pointer.  The embedding makes that state explicit:

* a variable is a heap index (`VarId`); the heap `VarHeap` maps each index to
  the cell's `value` field (`none` = unset, mirroring Go's `nil`);
* `Goal` nodes, where pointer sharing matters (`Rule.cp`), live in an explicit
  node store (`GoalHeap`), with `Option Nat` as the `tail` pointer;
* functions whose Go originals can loop forever (unification through binding
  chains, `Variable.Value`, the resolution driver) take a fuel argument and
  return `none` when it runs out, so nontermination is observable.

The `Float64` term variant of the source is not modelled: floating-point
unification is orthogonal to every property proved below, and no modelled
code path inspects it.  The `name` field of `Variable` is debug-only in the
source and is likewise dropped.
-/

namespace PL

/-- Variable identity: Go identifies variables by allocation identity
(pointer); here, by heap index. -/
abbrev VarId := Nat

/-- Terms of `prolog/syntax/term.go`: `Atom`, `Integer`, `*Variable`,
`*Compound`, and the two singletons `AnonVariable` and `Cut`. -/
inductive Term : Type where
  | atom (s : String)
  | int (n : Int)
  | var (id : VarId)
  | compound (functor : String) (args : List Term)
  | anon
  | cut

/-- The variable heap: index `i` holds the `value` field of variable `i`
(`none` = Go `nil`, unset). -/
abbrev VarHeap := List (Option Term)

/-- Read a variable's `value` field. -/
def VarHeap.cell (h : VarHeap) (id : VarId) : Option Term :=
  (h.getD id none)

/-- Write a variable's `value` field. -/
def VarHeap.setCell (h : VarHeap) (id : VarId) (t : Option Term) : VarHeap :=
  h.set id t

mutual

/-- `Term.Unify` of term.go.  Dispatches on the receiver exactly as the Go
method set does; mutates the heap; returns `none` when fuel runs out (the
source has no such bound and can recurse forever through binding chains:
its own comment reads "TODO: review this logic, prevent infinate loops"). -/
def unify : Nat → VarHeap → Term → Term → Option (VarHeap × Bool)
  | 0, _, _, _ => none
  | _ + 1, h, .anon, _ => some (h, true)
  | _ + 1, h, .cut, _ => some (h, true)
  | fuel + 1, h, .atom s, b =>
    match b with
    | .var id => varUnify fuel h id (.atom s)
    | .atom s2 => some (h, s == s2)
    | _ => some (h, false)
  | fuel + 1, h, .int n, b =>
    match b with
    | .var id => varUnify fuel h id (.int n)
    | .int m => some (h, n == m)
    | _ => some (h, false)
  | fuel + 1, h, .var id, b => varUnify fuel h id b
  | fuel + 1, h, .compound f args, b =>
    match b with
    | .var id => varUnify fuel h id (.compound f args)
    | .compound f2 args2 =>
      if f ≠ f2 ∨ args.length ≠ args2.length then some (h, false)
      else unifyArgs fuel h args args2
    | _ => some (h, false)

/-- `Variable.Unify` of term.go (the receiver is variable `id`). -/
def varUnify : Nat → VarHeap → VarId → Term → Option (VarHeap × Bool)
  | 0, _, _, _ => none
  | fuel + 1, h, id, t =>
    match t with
    | .var id2 =>
      if id = id2 then some (h, true)
      else
        match h.cell id with
        | none => some (h.setCell id (some (.var id2)), true)
        | some v1 =>
          match h.cell id2 with
          | none => some (h.setCell id2 (some (.var id)), true)
          | some v2 => unify fuel h v1 v2
    | _ =>
      match h.cell id with
      | none => some (h.setCell id (some t), true)
      | some v => unify fuel h v t

/-- The argument loop of `Compound.Unify`: pairwise left-to-right,
stopping at the first failure; bindings already made are kept (the caller,
not `Unify`, owns restoration).  Only ever invoked on lists of equal
length (the arity check precedes the loop in the source). -/
def unifyArgs : Nat → VarHeap → List Term → List Term → Option (VarHeap × Bool)
  | 0, _, _, _ => none
  | _ + 1, h, [], _ => some (h, true)
  | _ + 1, h, _ :: _, [] => some (h, true)
  | fuel + 1, h, a :: as', b :: bs =>
    match unify fuel h a b with
    | none => none
    | some (h1, false) => some (h1, false)
    | some (h1, true) => unifyArgs fuel h1 as' bs

end

/-- The dereference loop of `Variable.Value`: follow `value` fields while
they hold variables.  Outer `none` = fuel exhausted (the Go loop does not
terminate on a cyclic chain); inner `none` = Go `nil` (chain ends unset). -/
def walk : Nat → VarHeap → Option Term → Option (Option Term)
  | _, _, none => some none
  | _, _, some (.atom s) => some (some (.atom s))
  | _, _, some (.int n) => some (some (.int n))
  | _, _, some (.compound f args) => some (some (.compound f args))
  | _, _, some .anon => some (some .anon)
  | _, _, some .cut => some (some .cut)
  | 0, _, some (.var _) => none
  | fuel + 1, h, some (.var id) => walk fuel h (h.cell id)

/-- `Variable.Value` of term.go for variable `id`. -/
def varValue (fuel : Nat) (h : VarHeap) (id : VarId) : Option (Option Term) :=
  walk fuel h (h.cell id)

/-! ## Clauses and the program database -/

/-- A clause signature: (functor, number of arguments). -/
abbrev Sig := String × Nat

/-- A `Clause` of the source: a `*Compound` used as a fact, or a `*Rule`
(functor, parameters, body goal list; `[]` stands for a `nil` body).
Built-in clauses (package `builtin`) are modelled separately below. -/
inductive Clause : Type where
  | fact (functor : String) (args : List Term)
  | rule (functor : String) (args : List Term) (body : List Term)

/-- `Signature()` of both clause kinds. -/
def Clause.sig : Clause → Sig
  | .fact f args => (f, args.length)
  | .rule f args _ => (f, args.length)

/-- The program: clauses in insertion order.  The source keeps a map from
signature to an insertion-ordered bucket; filtering the global insertion
order by signature yields exactly that bucket. -/
abbrev Prog := List Clause

/-- `Prog.match`: the ordered bucket of clauses sharing the signature. -/
def progMatch (p : Prog) (s : Sig) : List Clause :=
  p.filter (fun c => c.sig == s)

/-! ## `Rule.cp`: the fresh-copy table -/

/-- The `vars` table of `Rule.cp`: original variable id to copy id. -/
abbrev VarTable := List (VarId × VarId)

/-- Table lookup (Go map read). -/
def VarTable.find (tbl : VarTable) (id : VarId) : Option VarId :=
  (tbl.find? (fun p => p.1 == id)).map (fun p => p.2)

mutual

/-- `cpTerm` inside `Rule.cp`: copy a term, replacing each variable by a
fresh unset one allocated at the end of the heap, consistently through the
table; atoms, integers and the singletons are returned unchanged. -/
def cpTerm : Nat → VarHeap → VarTable → Term → Option (VarHeap × VarTable × Term)
  | 0, _, _, _ => none
  | _ + 1, h, tbl, .var id =>
    match tbl.find id with
    | some id2 => some (h, tbl, .var id2)
    | none => some (h ++ [none], tbl ++ [(id, h.length)], .var h.length)
  | fuel + 1, h, tbl, .compound f args =>
    match cpTerms fuel h tbl args with
    | none => none
    | some (h1, tbl1, args1) => some (h1, tbl1, .compound f args1)
  | _ + 1, h, tbl, t => some (h, tbl, t)

/-- `cpTerms` inside `Rule.cp`: copy a term list left to right. -/
def cpTerms : Nat → VarHeap → VarTable → List Term → Option (VarHeap × VarTable × List Term)
  | 0, _, _, _ => none
  | _ + 1, h, tbl, [] => some (h, tbl, [])
  | fuel + 1, h, tbl, t :: ts =>
    match cpTerm fuel h tbl t with
    | none => none
    | some (h1, tbl1, t1) =>
      match cpTerms fuel h1 tbl1 ts with
      | none => none
      | some (h2, tbl2, ts1) => some (h2, tbl2, t1 :: ts1)

end

/-! ## `Clause.Call` -/

/-- `Clause.Call` as the resolution driver observes it.  A fact unifies the
call arguments with its own arguments pairwise (the caller's argument is
the `Unify` receiver) and returns no body.  A rule first copies its
parameters and every body goal in order through one shared table
(`Rule.cp`), then unifies.  The copy loop of the source advances `last` to
the *original* node instead of the copy just chained, so the body chain it
returns to the caller holds only the first two copied goals: hence
`.take 2`.  (The same slip rewrites the original rule's body in place when
the body has three or more goals; that in-place damage is modelled on
explicit goal nodes further below.  The engine runs proved here only use
rule bodies of at most two goals, for which the loop is undamaging.) -/
def clauseCall (fuel : Nat) (h : VarHeap) (c : Clause) (args : List Term) :
    Option (VarHeap × List Term × Bool) :=
  match c with
  | .fact _ cargs =>
    if cargs.length ≠ args.length then some (h, [], false)
    else
      match unifyArgs fuel h args cargs with
      | none => none
      | some (h1, ok) => some (h1, [], ok)
  | .rule _ rargs rbody =>
    if args.length ≠ rargs.length then some (h, [], false)
    else
      match cpTerms fuel h [] rargs with
      | none => none
      | some (h1, tbl1, rargs1) =>
        match cpTerms fuel h1 tbl1 rbody with
        | none => none
        | some (h2, _, bodyCopy) =>
          match unifyArgs fuel h2 args rargs1 with
          | none => none
          | some (h3, false) => some (h3, [], false)
          | some (h3, true) => some (h3, bodyCopy.take 2, true)

/-! ## Choice points -/

/-- `visitVarsTerm`: the variables of a term, in visit order. -/
def varsOfTerm : Nat → Term → List VarId
  | 0, _ => []
  | _ + 1, .var id => [id]
  | fuel + 1, .compound _ args => args.foldl (fun acc t => acc ++ varsOfTerm fuel t) []
  | _ + 1, _ => []

/-- `visitVars`: the variables of a goal list, in visit order. -/
def varsOfGoal (fuel : Nat) (g : List Term) : List VarId :=
  g.foldl (fun acc t => acc ++ varsOfTerm fuel t) []

/-- The error values surfaced through `Results.Err`. -/
inductive Error : Type where
  | typeErr (expected : String) (got : Term)
  | closed

/-- A `choicepoint`: parent link, the callable compound being tried
(functor and arguments), the remaining goal list, the queue of candidate
clauses, and the snapshot of every variable visible at creation. -/
inductive CP : Type where
  | mk (backtrack : Option CP) (factFunctor : String) (factArgs : List Term)
       (remaining : List Term) (clauses : List Clause)
       (snap : List (VarId × Option Term))

def CP.backtrack : CP → Option CP
  | .mk b _ _ _ _ _ => b

def CP.factFunctor : CP → String
  | .mk _ f _ _ _ _ => f

def CP.factArgs : CP → List Term
  | .mk _ _ a _ _ _ => a

def CP.remaining : CP → List Term
  | .mk _ _ _ r _ _ => r

def CP.clauses : CP → List Clause
  | .mk _ _ _ _ cs _ => cs

def CP.snap : CP → List (VarId × Option Term)
  | .mk _ _ _ _ _ s => s

def CP.setClauses : CP → List Clause → CP
  | .mk b f a r _ s, cs => .mk b f a r cs s

def CP.setBacktrack : CP → Option CP → CP
  | .mk _ f a r cs s, b => .mk b f a r cs s

/-- Snapshot read: a variable missing from the Go map reads as `nil`. -/
def snapLookup (s : List (VarId × Option Term)) (v : VarId) : Option Term :=
  match s.find? (fun p => p.1 == v) with
  | some p => p.2
  | none => none

/-- `choicepoint.resetVars`: write the snapshot value back into every
variable visited through the fact's arguments and the remaining goals. -/
def resetVars (fuel : Nat) (h : VarHeap) (cp : CP) : VarHeap :=
  (varsOfTerm fuel (.compound cp.factFunctor cp.factArgs) ++
      varsOfGoal fuel cp.remaining).foldl
    (fun h' v => h'.setCell v (snapLookup cp.snap v)) h

/-- `Term.Callable`: a compound is its own callable form; atoms, integers
and the singletons yield `nil` (`Atom.Callable` returns `nil` in the
source); a variable defers to its `value` field, recursively. -/
def callable : Nat → VarHeap → Term → Option (Option (String × List Term))
  | 0, _, _ => none
  | _ + 1, _, .atom _ => some none
  | _ + 1, _, .int _ => some none
  | _ + 1, _, .anon => some none
  | _ + 1, _, .cut => some none
  | _ + 1, _, .compound f args => some (some (f, args))
  | fuel + 1, h, .var id =>
    match h.cell id with
    | none => some none
    | some v => callable fuel h v

/-- `Prog.choicepoint`: resolve the head to a callable compound (else a
type error), snapshot the variables of the whole goal, and select the
candidate clauses by signature.  (The source panics on a nil goal; the
embedding never builds one.) -/
def progChoicepoint (fuel : Nat) (p : Prog) (h : VarHeap) (goal : List Term)
    (backtrack : Option CP) : Option (Except Error CP) :=
  match goal with
  | [] => none
  | head :: tail =>
    match callable fuel h head with
    | none => none
    | some none => some (.error (.typeErr "callable" head))
    | some (some (f, fargs)) =>
      let snap := (varsOfGoal fuel (head :: tail)).map (fun v => (v, h.cell v))
      some (.ok (.mk backtrack f fargs tail (progMatch p (f, fargs.length)) snap))

/-- `choicepoint.next`: pop candidate clauses until one matches; before
each trial reset the visible variables to the snapshot; on a match with a
body, splice the remaining goals onto the body's tail.  No reset happens
when the queue runs out. -/
def cpNext : Nat → VarHeap → CP → Option (VarHeap × CP × List Term × Bool)
  | 0, _, _ => none
  | fuel + 1, h, cp =>
    match cp.clauses with
    | [] => some (h, cp, [], false)
    | clause :: rest =>
      let cp1 := cp.setClauses rest
      let h1 := resetVars fuel h cp1
      match clauseCall fuel h1 clause cp1.factArgs with
      | none => none
      | some (h2, _, false) => cpNext fuel h2 cp1
      | some (h2, body, true) =>
        if body.isEmpty then some (h2, cp1, cp1.remaining, true)
        else some (h2, cp1, body ++ cp1.remaining, true)

/-! ## Results -/

/-- The `Results` iterator: the program and current choice point (dropped
by `Close`), and the sticky error. -/
structure Results : Type where
  prog : Option Prog
  cp : Option CP
  err : Option Error

/-- `Results.Close`: drop the program and choice point; record the sticky
`"results closed"` error only if no error is recorded yet. -/
def Results.close (r : Results) : Results :=
  { prog := none, cp := none,
    err := match r.err with
           | none => some .closed
           | some e => some e }

/-- The cut handling inside `Results.Next`: while the result list starts
with the cut marker, nil the current choice point's backtrack link and
drop the marker.  The source never clears the choice point's own clause
queue here. -/
def dropCuts : CP → List Term → CP × List Term
  | cp, .cut :: rest => dropCuts (cp.setBacktrack none) rest
  | cp, g => (cp, g)

/-- The `for r.cp != nil` loop of `Results.Next`. -/
def resultsLoop : Nat → VarHeap → Results → Option (VarHeap × Results × Bool)
  | 0, _, _ => none
  | fuel + 1, h, r =>
    match r.cp with
    | none => some (h, r, false)
    | some cp =>
      match cpNext fuel h cp with
      | none => none
      | some (h1, cp1, _, false) =>
        resultsLoop fuel h1 { r with cp := cp1.backtrack }
      | some (h1, cp1, result, true) =>
        let (cp2, result2) := dropCuts cp1 result
        if result2.isEmpty then some (h1, { r with cp := some cp2 }, true)
        else
          match progChoicepoint fuel (r.prog.getD []) h1 result2 (some cp2) with
          | none => none
          | some (.error e) => some (h1, { r with cp := none, err := some e }, false)
          | some (.ok cpNew) => resultsLoop fuel h1 { r with cp := some cpNew }

/-- `Results.Next`: return false at once under a sticky error, else run
the loop.  (`r.prog` is only read inside the loop, where a live choice
point guarantees it is present, matching the source's use of `r.p`.) -/
def resultsNext (fuel : Nat) (h : VarHeap) (r : Results) :
    Option (VarHeap × Results × Bool) :=
  if r.err.isSome then some (h, r, false) else resultsLoop fuel h r

/-- `Prog.Query`: build the root choice point; on error return a poisoned
`Results` (nil program, nil choice point). -/
def progQuery (fuel : Nat) (p : Prog) (h : VarHeap) (goal : List Term) :
    Option Results :=
  match progChoicepoint fuel p h goal none with
  | none => none
  | some (.error e) => some { prog := none, cp := none, err := some e }
  | some (.ok cp) => some { prog := some p, cp := some cp, err := none }

/-- Run `n` calls of `Next` on a `Results`, recording after each call the
returned boolean and the fully dereferenced value of the watched variable,
then the final sticky error and the final variable heap. -/
def queryRun : Nat → Nat → VarHeap → Results → VarId →
    Option (List (Bool × Option Term) × Option Error × VarHeap)
  | 0, _, h, r, _ => some ([], r.err, h)
  | n + 1, fuel, h, r, watch =>
    match resultsNext fuel h r with
    | none => none
    | some (h1, r1, b1) =>
      match varValue fuel h1 watch with
      | none => none
      | some v1 =>
        match queryRun n fuel h1 r1 watch with
        | none => none
        | some (rest, e, hEnd) => some ((b1, v1) :: rest, e, hEnd)

/-- Query a program and run `n` calls of `Next`, observing the watched
variable after each. -/
def queryTrace (fuel : Nat) (p : Prog) (h : VarHeap) (goal : List Term)
    (watch : VarId) (n : Nat) :
    Option (List (Bool × Option Term) × Option Error × VarHeap) :=
  match progQuery fuel p h goal with
  | none => none
  | some r => queryRun n fuel h r watch

/-! ## `Rule.cp` on explicit goal nodes

The source links `Goal` nodes by pointer and `Rule.cp` writes through
those pointers, so here the nodes live in an explicit store: a node is a
head term and a tail pointer (an index; `none` = nil). -/

/-- One `Goal` node of term.go. -/
structure GoalNode : Type where
  head : Term
  tail : Option Nat

/-- The store of `Goal` nodes. -/
abbrev GoalHeap := List GoalNode

/-- A `Rule` whose body is a pointer into the node store. -/
structure RuleN : Type where
  functor : String
  args : List Term
  body : Option Nat

/-- The copy loop of `Rule.cp`: each iteration copies the head of the
original node `next`, allocates a node for the copy, assigns it to
`last.tail`, and then advances with `last, next = next, next.tail` — so
`last` becomes the *original* node just copied, not the copy, and from the
second iteration on the assignment writes into the original chain. -/
def ruleCpLoop : Nat → VarHeap → VarTable → GoalHeap → Nat → Option Nat →
    Option (VarHeap × VarTable × GoalHeap)
  | _, h, tbl, gs, _, none => some (h, tbl, gs)
  | 0, _, _, _, _, some _ => none
  | fuel + 1, h, tbl, gs, last, some nid =>
    match gs[nid]? with
    | none => none
    | some node =>
      match cpTerm fuel h tbl node.head with
      | none => none
      | some (h1, tbl1, headCp) =>
        let newId := gs.length
        let gs1 := gs ++ [⟨headCp, none⟩]
        let gs2 := match gs1[last]? with
          | none => gs1
          | some lastNode => gs1.set last ⟨lastNode.head, some newId⟩
        match gs2[nid]? with
        | none => none
        | some nodeAfter => ruleCpLoop fuel h1 tbl1 gs2 nid nodeAfter.tail

/-- `Rule.cp`: copy the parameters, then copy the body chain with the loop
above; the copied rule's body points at the first copied node. -/
def ruleCp (fuel : Nat) (h : VarHeap) (gs : GoalHeap) (r : RuleN) :
    Option (VarHeap × GoalHeap × RuleN) :=
  match cpTerms fuel h [] r.args with
  | none => none
  | some (h1, tbl1, args1) =>
    match r.body with
    | none => some (h1, gs, ⟨r.functor, args1, none⟩)
    | some n1 =>
      match gs[n1]? with
      | none => none
      | some g1 =>
        match cpTerm fuel h1 tbl1 g1.head with
        | none => none
        | some (h2, tbl2, headCp) =>
          let c1 := gs.length
          match ruleCpLoop fuel h2 tbl2 (gs ++ [⟨headCp, none⟩]) c1 g1.tail with
          | none => none
          | some (h3, _, gs2) => some (h3, gs2, ⟨r.functor, args1, some c1⟩)

/-- `Rule.Call` on explicit nodes: arity check, fresh copy, pairwise
unification of the call arguments against the copied parameters (the
caller's argument is the receiver), returning the copied body pointer. -/
def ruleCallN (fuel : Nat) (h : VarHeap) (gs : GoalHeap) (r : RuleN)
    (args : List Term) : Option (VarHeap × GoalHeap × Option Nat × Bool) :=
  if args.length ≠ r.args.length then some (h, gs, none, false)
  else
    match ruleCp fuel h gs r with
    | none => none
    | some (h1, gs1, rcp) =>
      match unifyArgs fuel h1 args rcp.args with
      | none => none
      | some (h2, false) => some (h2, gs1, none, false)
      | some (h2, true) => some (h2, gs1, rcp.body, true)

/-- Read a goal chain out of the node store by following tail pointers. -/
def goalChain : Nat → GoalHeap → Option Nat → Option (List Term)
  | _, _, none => some []
  | 0, _, some _ => none
  | fuel + 1, gs, some nid =>
    match gs[nid]? with
    | none => none
    | some node =>
      match goalChain fuel gs node.tail with
      | none => none
      | some ts => some (node.head :: ts)

/-! ## The type-test built-ins (`prolog/builtin/type.go`)

The closures return `(nil, matches)`; the body is always nil, so only the
boolean is modelled.  `none` stands for a run-time fault (the Go code
indexes `args[1]`, out of range exactly when the guard `len(args) == 1`
holds). -/

/-- The `call` closure of `builtin.Var1` (`var/1`). -/
def var1Call (args : List Term) : Option Bool :=
  if args.length = 1 then
    match args[1]? with
    | none => none
    | some t => some (match t with | .var _ => true | _ => false)
  else some false

/-- The `call` closure of `builtin.Nonvar1` (`nonvar/1`). -/
def nonvar1Call (args : List Term) : Option Bool :=
  if args.length = 1 then
    match args[1]? with
    | none => none
    | some t => some (!(match t with | .var _ => true | _ => false))
  else some false

/-! ## Concrete programs, heaps and goals used below -/

/-- Program `a(1). a(2). b(X) :- a(X), !.` — variable 0 is the rule's `X`. -/
def c1prog : Prog :=
  [.fact "a" [.int 1],
   .fact "a" [.int 2],
   .rule "b" [.var 0] [.compound "a" [.var 0], .cut]]

/-- Program `f(a, b).` -/
def c2prog : Prog := [.fact "f" [.atom "a", .atom "b"]]

/-- Program `a.` (a nullary fact, stored as the compound `a()`). -/
def c7prog : Prog := [.fact "a" []]

/-- The poisoned `Results` that querying the atom goal `a` produces. -/
def c7errRes : Results :=
  { prog := none, cp := none, err := some (.typeErr "callable" (.atom "a")) }

/-- Program `likes(eric, shoes). likes(bob, pizza). likes(eric, bubblegum).
likes(bob, beer).` -/
def c8prog : Prog :=
  [.fact "likes" [.atom "eric", .atom "shoes"],
   .fact "likes" [.atom "bob", .atom "pizza"],
   .fact "likes" [.atom "eric", .atom "bubblegum"],
   .fact "likes" [.atom "bob", .atom "beer"]]

/-- The heap after unifying two fresh variables with each other twice:
each points at the other. -/
def cyclicPair : VarHeap := [some (.var 1), some (.var 0)]

/-- On `cyclicPair` the dereference loop of `Variable.Value` never leaves
the pair `0 ↔ 1`, whatever the fuel. -/
theorem walk_cyclicPair (fuel : Nat) :
    walk fuel cyclicPair (some (.var 0)) = none ∧
    walk fuel cyclicPair (some (.var 1)) = none := by
  induction fuel with
  | zero => exact ⟨rfl, rfl⟩
  | succ f ih => exact ⟨ih.2, ih.1⟩

/-- The node store of the rule `r(X) :- p(X), q(X), s(X)`: variable 0 is
the rule's `X`; node `k` holds the `k`-th body goal. -/
def c3goals0 : GoalHeap :=
  [⟨.compound "p" [.var 0], some 1⟩,
   ⟨.compound "q" [.var 0], some 2⟩,
   ⟨.compound "s" [.var 0], none⟩]

/-- The rule `r(X) :- p(X), q(X), s(X)` over `c3goals0`. -/
def c3rule : RuleN := ⟨"r", [.var 0], some 0⟩

/-- The node store after `c3rule.Call([Y])`: the copy chain `3 → 4` stops
after two goals, and original node 1 now points at node 5, the stray copy
of the third goal. -/
def c3goalsAfter : GoalHeap :=
  [⟨.compound "p" [.var 0], some 1⟩,
   ⟨.compound "q" [.var 0], some 5⟩,
   ⟨.compound "s" [.var 0], none⟩,
   ⟨.compound "p" [.var 2], some 4⟩,
   ⟨.compound "q" [.var 2], none⟩,
   ⟨.compound "s" [.var 2], none⟩]

/-! ## The claims -/

/-- C1.  REFUTED (bug in the source).  For `a(1). a(2). b(X) :- a(X), !.`
and query `b(Y)` the claim expects one solution `Y = 1` and then false,
the cut having emptied the candidate-clause queues.  The source instead
only nils the current choice point's backtrack link (`Results.Next`:
`r.cp.backtrack = nil`) and never clears `cp.clauses`, so the second
`Next` pops the remaining candidate `a(2)` from the same choice point and
yields a second solution `Y = 2` before returning false. -/
theorem cut_leaves_clause_queue_untouched :
    queryTrace 50 c1prog [none, none] [.compound "b" [.var 1]] 1 3 =
      some ([(true, some (.int 1)), (true, some (.int 2)), (false, some (.int 2))],
        none, [none, some (.var 2), some (.int 2)]) := rfl

/-- C2.  REFUTED (bug in the source).  Program `f(a, b).`, query
`f(X, c)`: the only clause trial binds `X := a`, then fails on `c` vs `b`;
`Next` returns false with no error, yet `X` stays bound to `a` — the
snapshot is written back only at the *start* of each clause trial
(`choicepoint.next` calls `resetVars` before `clause.Call`), and nothing
restores after the last failed trial, so the pre-query state (cell 0
unset) is not re-established. -/
theorem exhausted_query_keeps_partial_binding :
    VarHeap.cell [none] 0 = none ∧
    queryTrace 50 c2prog [none] [.compound "f" [.var 0, .atom "c"]] 0 1 =
      some ([(false, some (.atom "a"))], none, [some (.atom "a")]) ∧
    VarHeap.cell [some (.atom "a")] 0 ≠ VarHeap.cell [none] 0 :=
  ⟨rfl, rfl, by simp [VarHeap.cell]⟩

/-- C3.  REFUTED (bug in the source).  Calling `r(X) :- p(X), q(X), s(X)`
with one fresh argument: the body returned to the caller holds only the
first two copied goals `p(X2), q(X2)` instead of all three, and the rule's
own stored body has been rewritten in place from `p(X), q(X), s(X)` to
`p(X), q(X), s(X2)` — the copy loop of `Rule.cp` advances `last` to the
original node instead of the copy (`last, next = next, next.tail`), so
from the second iteration on it chains copies into the original. -/
theorem rule_call_truncates_and_rewrites_body :
    goalChain 9 c3goals0 (some 0) =
      some [.compound "p" [.var 0], .compound "q" [.var 0], .compound "s" [.var 0]] ∧
    ruleCallN 50 [none, none] c3goals0 c3rule [.var 1] =
      some ([none, some (.var 2), none], c3goalsAfter, some 3, true) ∧
    goalChain 9 c3goalsAfter (some 3) =
      some [.compound "p" [.var 2], .compound "q" [.var 2]] ∧
    goalChain 9 c3goalsAfter (some 0) =
      some [.compound "p" [.var 0], .compound "q" [.var 0], .compound "s" [.var 2]] ∧
    Term.compound "s" [.var 2] ≠ Term.compound "s" [.var 0] :=
  ⟨rfl, rfl, rfl, rfl, by simp⟩

/-- C4.  REFUTED (bug in the source).  After a successful
`a.Unify(b)` on two fresh variables (which binds `a := b`), repeating
`a.Unify(b)` succeeds again but performs a new binding: `a` is now bound
and `b` still unset, so `Variable.Unify` takes the `v2.value == nil`
branch and writes `b := a`, changing cell 1 from unset to `a`. -/
theorem repeated_unify_makes_new_binding :
    unify 9 [none, none] (.var 0) (.var 1) =
      some ([some (.var 1), none], true) ∧
    unify 9 [some (.var 1), none] (.var 0) (.var 1) =
      some ([some (.var 1), some (.var 0)], true) ∧
    VarHeap.cell [some (.var 1), none] 1 = none ∧
    VarHeap.cell [some (.var 1), some (.var 0)] 1 = some (.var 0) ∧
    VarHeap.cell [some (.var 1), some (.var 0)] 1 ≠ VarHeap.cell [some (.var 1), none] 1 :=
  ⟨rfl, rfl, rfl, rfl, by simp [VarHeap.cell]⟩

/-- C5.  REFUTED (bug in the source).  Unifying the same two fresh
variables twice produces the heap `0 ↦ var 1, 1 ↦ var 0`: the dereference
chain of variable 0 is `0 → 1 → 0 → …`, a cycle, and `Variable.Value`
never terminates on it — `varValue` returns `none` at every fuel.  (The
source's own comment at this logic reads "TODO: review this logic,
prevent infinate loops".) -/
theorem unify_can_create_cyclic_chain :
    unify 9 [none, none] (.var 0) (.var 1) =
      some ([some (.var 1), none], true) ∧
    unify 9 [some (.var 1), none] (.var 0) (.var 1) = some (cyclicPair, true) ∧
    cyclicPair.cell 0 = some (.var 1) ∧
    cyclicPair.cell 1 = some (.var 0) ∧
    ∀ fuel, varValue fuel cyclicPair 0 = none :=
  ⟨rfl, rfl, rfl, rfl, fun fuel => (walk_cyclicPair fuel).2⟩

/-- C6.  REFUTED (bug in the source).  The anonymous variable and the cut
marker unify with anything only when they are the *receiver*: as the
argument of an `Atom` or `Compound` receiver, the receiver's type switch
has no case for them and falls through to failure. -/
theorem anon_cut_succeed_only_as_receiver :
    unify 9 [] .anon (.atom "a") = some ([], true) ∧
    unify 9 [] .cut (.compound "f" [.atom "x"]) = some ([], true) ∧
    unify 9 [] (.atom "a") .anon = some ([], false) ∧
    unify 9 [] (.atom "a") .cut = some ([], false) ∧
    unify 9 [] (.compound "f" [.atom "x"]) .anon = some ([], false) ∧
    unify 9 [] (.compound "f" [.atom "x"]) .cut = some ([], false) :=
  ⟨rfl, rfl, rfl, rfl, rfl, rfl⟩

/-- C7.  REFUTED (bug in the source).  `Atom.Callable` returns `nil`, so
a query whose goal head is the atom `a` is rejected with
`TypeError{expected: "callable"}` even though the program holds the
nullary fact `a()` — which the same query phrased with a nullary compound
head does reach and prove.  An unbound variable head is likewise a type
error (that part matches the claim). -/
theorem atom_goal_head_raises_type_error :
    progQuery 50 c7prog [] [.atom "a"] = some c7errRes ∧
    resultsNext 50 [] c7errRes = some ([], c7errRes, false) ∧
    callable 9 [] (.atom "a") = some none ∧
    callable 9 [] (.compound "a" []) = some (some ("a", [])) ∧
    queryTrace 50 c7prog [] [.compound "a" []] 0 2 =
      some ([(true, none), (false, none)], none, []) ∧
    progQuery 50 c7prog [none] [.var 0] =
      some { prog := none, cp := none, err := some (.typeErr "callable" (.var 0)) } :=
  ⟨rfl, rfl, rfl, rfl, rfl, rfl⟩

/-- C8.  CONFIRMED.  Querying `likes(bob, X)` against the four facts
enumerates `X = pizza` then `X = beer` in clause-insertion order, and the
third `Next` returns false with no error. -/
theorem solutions_enumerate_in_insertion_order :
    queryTrace 50 c8prog [none] [.compound "likes" [.atom "bob", .var 0]] 0 3 =
      some ([(true, some (.atom "pizza")), (true, some (.atom "beer")),
             (false, some (.atom "beer"))],
        none, [some (.atom "beer")]) := rfl

/-- C9.  CONFIRMED.  Errors are sticky: whenever `err` is set, `Next`
returns false and changes nothing.  `Close` on an error-free `Results`
records the sticky `"results closed"` error; after any `Close`, every
`Next` returns false; and a second `Close` is a no-op (in particular the
recorded error is unchanged). -/
theorem results_error_sticky_and_close_poisons (r : Results) (h : VarHeap)
    (fuel : Nat) :
    (∀ e, r.err = some e → resultsNext fuel h r = some (h, r, false)) ∧
    (r.err = none → r.close.err = some .closed) ∧
    resultsNext fuel h r.close = some (h, r.close, false) ∧
    r.close.close = r.close := by
  refine ⟨fun e he => ?_, fun he => ?_, ?_, ?_⟩
  · simp [resultsNext, he]
  · simp [Results.close, he]
  · have hs : r.close.err.isSome := by
      cases hr : r.err <;> simp [Results.close, hr]
    simp [resultsNext, hs]
  · cases hr : r.err <;> simp [Results.close, hr]

/-- Instances of the parts of `results_error_sticky_and_close_poisons`
that carry hypotheses, at concrete inputs. -/
theorem results_error_sticky_witness :
    resultsNext 3 [] { prog := none, cp := none, err := some .closed } =
      some ([], { prog := none, cp := none, err := some .closed }, false) ∧
    (Results.close { prog := some [], cp := none, err := none }).err = some .closed ∧
    resultsNext 3 []
        (Results.close { prog := some [], cp := none, err := none }) =
      some ([], Results.close { prog := some [], cp := none, err := none }, false) :=
  ⟨(results_error_sticky_and_close_poisons
      { prog := none, cp := none, err := some .closed } [] 3).1 .closed rfl,
   (results_error_sticky_and_close_poisons
      { prog := some [], cp := none, err := none } [] 3).2.1 rfl,
   (results_error_sticky_and_close_poisons
      { prog := some [], cp := none, err := none } [] 3).2.2.1⟩

/-- C10.  REFUTED (bug in the source).  For an argument list of length
exactly 1 the closures of `var/1` and `nonvar/1` take the
`len(args) == 1` branch and read `args[1]` — one past the end — so every
such call faults instead of testing `args[0]`. -/
theorem var1_nonvar1_index_out_of_range :
    var1Call [.var 0] = none ∧
    nonvar1Call [.var 0] = none ∧
    var1Call [.atom "a"] = none ∧
    nonvar1Call [.atom "a"] = none :=
  ⟨rfl, rfl, rfl, rfl⟩

end PL
